import Mathlib

/-!
Verification of the voice-chat media queueing and streaming-orchestration
engine (src/heroku/modules/voicechat.py) against its specification.

The Python classes are shallowly embedded as pure Lean functions:
Python dicts become association lists over Int keys, mutation becomes
explicit state passing, the filesystem and the external PyTgCalls library
become oracle parameters, and exceptions caught by the source become
explicit branches.
-/

namespace VoiceChat

/-- The QueueItem dataclass (voicechat.py, lines 72-88): one playable unit.
Timestamps are modelled as integers. -/
structure QueueItem where
  file_path : String
  title : String
  duration : Int := 0
  is_video : Bool := false
  source_type : String := "unknown"
  added_by : Int := 0
  timestamp : Int := 0
  deriving DecidableEq, Repr

/-- Lookup in a Python-dict model (first entry with the given key). -/
def dictGet? {α : Type} (l : List (Int × α)) (k : Int) : Option α :=
  match l with
  | [] => none
  | (k1, v) :: t => if k1 = k then some v else dictGet? t k

/-- Python d.get(k, default). -/
def dictGetD {α : Type} (l : List (Int × α)) (k : Int) (d : α) : α :=
  (dictGet? l k).getD d

/-- Python d[k] = v : replace the entry for k in place, or append it. -/
def dictSet {α : Type} (l : List (Int × α)) (k : Int) (v : α) : List (Int × α) :=
  match l with
  | [] => [(k, v)]
  | (k1, w) :: t => if k1 = k then (k, v) :: t else (k1, w) :: dictSet t k v

/-- Python d.pop(k, None) : drop the entry for k. -/
def dictPop {α : Type} (l : List (Int × α)) (k : Int) : List (Int × α) :=
  l.filter (fun p => p.1 != k)

/-- In-memory state of QueueManager (voicechat.py, lines 123-130):
queues, current-playing cursor per chat, repeat mode per chat.
The cursor is an Int, as in Python. -/
structure QMState where
  queues : List (Int × List QueueItem)
  currentPlaying : List (Int × Int)
  repeatMode : List (Int × Bool)
  deriving DecidableEq, Repr

def emptyQM : QMState := ⟨[], [], []⟩

/-- QueueManager.get_queue (lines 173-175): self..queues.get(chat_id, []). -/
def get_queue (S : QMState) (chat : Int) : List QueueItem :=
  dictGetD S.queues chat []

/-- Cursor read, as the source reads it: self..current_playing.get(chat_id, 0). -/
def cursorOf (S : QMState) (chat : Int) : Int :=
  dictGetD S.currentPlaying chat 0

/-- QueueManager.is_repeat_enabled (lines 214-216). -/
def is_repeat_enabled (S : QMState) (chat : Int) : Bool :=
  dictGetD S.repeatMode chat false

/-- QueueManager.get_current (lines 177-184): entry at the cursor if the
queue is non-empty and 0 <= cursor < len(queue), else None. -/
def get_current (S : QMState) (chat : Int) : Option QueueItem :=
  let queue := get_queue S chat
  let current_index := cursorOf S chat
  if queue ≠ [] ∧ 0 ≤ current_index ∧ current_index < (queue.length : Int) then
    queue.get? current_index.toNat
  else none

/-- QueueManager.next_item (lines 186-203): advance the cursor; past the
end it wraps to 0 under repeat mode, otherwise returns None leaving the
state untouched.  Returns the Python return value paired with the state.
(The source indexes queue[next_index] directly; under the cursor
invariant proved below the index is always in range, so the out-of-range
arm of get? is never reached in any theorem of this file.) -/
def next_item (S : QMState) (chat : Int) : Option QueueItem × QMState :=
  let queue := get_queue S chat
  if queue = [] then (none, S)
  else
    let current_index := cursorOf S chat
    let next_index := current_index + 1
    if (queue.length : Int) ≤ next_index then
      if is_repeat_enabled S chat then
        (queue.get? 0, { S with currentPlaying := dictSet S.currentPlaying chat 0 })
      else (none, S)
    else
      (queue.get? next_index.toNat,
       { S with currentPlaying := dictSet S.currentPlaying chat next_index })

/-- QueueManager.add_item (lines 164-171): ensure the list exists, stamp
the item with the current time, append, return the new length (the
1-based position). -/
def add_item (S : QMState) (chat : Int) (item : QueueItem) (now : Int) :
    Nat × QMState :=
  let queue := dictGetD S.queues chat []
  let item1 := { item with timestamp := now }
  let queue1 := queue ++ [item1]
  (queue1.length, { S with queues := dictSet S.queues chat queue1 })

/-- QueueManager.clear_queue (lines 205-208): pops the queue and the
cursor entry.  Note: the repeat-mode entry is NOT popped by the source. -/
def clear_queue (S : QMState) (chat : Int) : QMState :=
  { S with queues := dictPop S.queues chat,
           currentPlaying := dictPop S.currentPlaying chat }

/-- QueueManager.set_repeat (lines 210-212). -/
def set_repeat (S : QMState) (chat : Int) (enabled : Bool) : QMState :=
  { S with repeatMode := dictSet S.repeatMode chat enabled }

/-- One serialized per-destination record (voicechat.py, lines 151-158).
QueueItem.to_dict / from_dict are asdict and cls(**data), exact inverses,
so items are carried through unchanged; str(chat_id) / int(chat_id_str)
are likewise inverse, so keys stay Int. -/
structure QueueRecord where
  items : List QueueItem
  current : Int
  rep : Bool
  deriving DecidableEq, Repr

/-- QueueManager.save_queues (lines 148-162): serialize every non-empty
queue together with its cursor (default 0) and repeat flag (default
false); empty queues are skipped. -/
def save_queues (S : QMState) : List (Int × QueueRecord) :=
  S.queues.filterMap fun p =>
    if p.2 = [] then none
    else some (p.1, ⟨p.2, dictGetD S.currentPlaying p.1 0, dictGetD S.repeatMode p.1 false⟩)

/-- QueueManager.load_queues (lines 132-146): for each persisted record,
assign items, cursor (get "current" default 0) and repeat flag (get
"repeat" default false) into the in-memory maps of S (fresh at startup). -/
def load_queues (S : QMState) (data : List (Int × QueueRecord)) : QMState :=
  data.foldl (fun acc p =>
    { queues := dictSet acc.queues p.1 p.2.items,
      currentPlaying := dictSet acc.currentPlaying p.1 p.2.current,
      repeatMode := dictSet acc.repeatMode p.1 p.2.rep }) S

/-!
Temporary Asset Store: TempFileManager (voicechat.py, lines 91-120).
The filesystem is identified with the tracking set: create_temp_file
creates the (fresh, collision-free) file on disk and tracks it;
cleanup_file unlinks it and discards it from the set.
-/

/-- State of TempFileManager: a counter standing for the fresh-name source
of NamedTemporaryFile, plus the set of tracked files. -/
structure TempState where
  counter : Nat
  files : List String
  deriving DecidableEq, Repr

def emptyTemp : TempState := ⟨0, []⟩

/-- TempFileManager.create_temp_file (lines 98-105): allocate a fresh
uniquely-named file with the given suffix and track it. -/
def create_temp_file (T : TempState) (suffix : String) : String × TempState :=
  let name := "/tmp/vc" ++ toString T.counter ++ suffix
  (name, ⟨T.counter + 1, name :: T.files⟩)

/-- TempFileManager.cleanup_file (lines 107-114): unlink the file if
present and discard it from the tracking set. -/
def cleanup_file (T : TempState) (path : String) : TempState :=
  ⟨T.counter, T.files.filter (fun f => f != path)⟩

/-- Python substring containment test (the "x in y" operator on str). -/
def strIn (needle hay : String) : Bool :=
  decide (needle.toList <:+: hay.toList)

/-!
Source Resolvers (voicechat.py, lines 230-395).  External I/O (yt-dlp,
aiohttp) is an oracle supplied as an environment record; an exception
raised by the library appears as the corresponding failure arm.
-/

/-- Oracle for one YouTubeSourceResolver.resolve run: availability of the
module-level yt-dlp and ffmpeg capabilities, the result of
ydl.extract_info (None when it raises; otherwise title and duration),
and whether ydl.download succeeds. -/
structure YtEnv where
  ytdlpAvailable : Bool
  ffmpegAvailable : Bool
  extractResult : Option (String × Int)
  downloadOk : Bool

/-- YouTubeSourceResolver.resolve (lines 233-302).  A temp file with the
.mp3 suffix is allocated before the metadata probe; the duration cap
(3600 s) returns None from inside the with-block; any raised exception is
caught by the outer handler which releases the temp file.  The
glob-and-rename step on success resolves to the allocated temp path. -/
def youtube_resolve (env : YtEnv) (T : TempState) (metaUser : Int) :
    Option QueueItem × TempState :=
  if !env.ytdlpAvailable then (none, T)
  else if !env.ffmpegAvailable then (none, T)
  else
    let r := create_temp_file T ".mp3"
    let temp_file := r.1
    let T1 := r.2
    match env.extractResult with
    | none => (none, cleanup_file T1 temp_file)
    | some (title, duration) =>
      if 3600 < duration then
        (none, T1)
      else if !env.downloadOk then (none, cleanup_file T1 temp_file)
      else
        (some { file_path := temp_file, title := title, duration := duration,
                is_video := false, source_type := "youtube", added_by := metaUser,
                timestamp := 0 }, T1)

/-- Oracle for one DirectURLSourceResolver.resolve run: the HEAD response
(None when the HEAD request raises; otherwise status, declared
content-length and content-type), the GET status, and the total number of
bytes the GET body actually streams. -/
structure UrlEnv where
  headResult : Option (Int × Option Int × String)
  getStatus : Int
  bodySize : Int

/-- Content-type driven choice of temp-file suffix
(voicechat.py, lines 337-354). -/
def pickSuffix (content_type : String) : String :=
  if strIn "audio" content_type then
    if strIn "mp3" content_type then ".mp3"
    else if strIn "ogg" content_type then ".ogg"
    else ".m4a"
  else if strIn "video" content_type then
    if strIn "mp4" content_type then ".mp4"
    else ".mkv"
  else ""

/-- Title fallback chain for direct URLs (lines 369-376): metadata title
if truthy, else the last path segment of the URL stripped of its query
string, else a fixed placeholder. -/
def urlTitle (url : String) (metaTitle : Option String) : String :=
  let t0 := metaTitle.getD ""
  if t0 ≠ "" then t0
  else
    let t1 := (url.splitOn "/").getLastD ""
    let t2 := (t1.splitOn "?").headD t1
    if t2 = "" ∨ t2 = "/" then "Downloaded Media" else t2

/-- DirectURLSourceResolver.resolve (lines 308-395).  HEAD phase: a non-200
HEAD status or an oversize declared content-length (int(cl)/(1024*1024) >
100, i.e. cl > 104857600) returns None before any temp file is allocated;
a raised HEAD request leaves content_type empty and proceeds.  A temp
file is then allocated from the lowered content type.  GET phase: on
status 200 the body is streamed in chunks with a running byte count, and
exceeding 100 MB raises, which the outer handler catches and releases the
temp file; on a non-200 GET status the source returns None directly, with
no release of the already-allocated temp file. -/
def directURL_resolve (env : UrlEnv) (T : TempState) (url : String)
    (metaTitle : Option String) (metaUser : Int) : Option QueueItem × TempState :=
  let headPhase : Option String :=
    match env.headResult with
    | none => some ""
    | some (status, clen, ctype) =>
      if status ≠ 200 then none
      else
        match clen with
        | some n => if 104857600 < n then none else some ctype.toLower
        | none => some ctype.toLower
  match headPhase with
  | none => (none, T)
  | some content_type =>
    let is_video := strIn "video" content_type
    let r := create_temp_file T (pickSuffix content_type)
    let temp_file := r.1
    let T1 := r.2
    if env.getStatus = 200 then
      if 104857600 < env.bodySize then
        (none, cleanup_file T1 temp_file)
      else
        (some { file_path := temp_file, title := urlTitle url metaTitle,
                duration := 0, is_video := is_video, source_type := "url",
                added_by := metaUser, timestamp := 0 }, T1)
    else
      (none, T1)

/-!
Streaming Backend: PyrogramTgCallsBackend (voicechat.py, lines 494-760).
The underlying PyTgCalls client is an oracle; a raised call appears as
the corresponding failure arm.
-/

/-- One Call Session State record (the call_info dicts built at lines
571-575 and 658-662). -/
structure CallInfo where
  joined_at : Int
  current_stream : Option String
  is_paused : Bool
  deriving DecidableEq, Repr

/-- In-memory backend state: the is_initialized flag and the
active_calls map (chat_id to call info). -/
structure BackendState where
  is_initialized : Bool
  active_calls : List (Int × CallInfo)
  deriving DecidableEq, Repr

/-- Oracle for backend runs: existence of files on disk, whether the
pytgcalls.types import succeeds, whether join_group_call / change_stream /
leave_group_call raise, and the current time. -/
structure BackendEnv where
  fileExists : String → Bool
  apiImportOk : Bool
  joinOk : Bool
  changeOk : Bool
  leaveRaises : Bool
  now : Int

/-- Python truthiness of the current_stream field (None and the empty
string are falsy). -/
def pyTruthy (s : Option String) : Bool :=
  match s with
  | none => false
  | some str => str != ""

/-- Failure taxonomy of play_media, one constructor per distinct
return-False site of the source (each with its own distinct log line). -/
inductive PlayOutcome where
  | ok
  | fail_not_initialized
  | fail_missing_file
  | fail_api
  | fail_backend
  deriving DecidableEq, Repr

/-- Which underlying PyTgCalls call play_media issued (if any). -/
inductive BackendCall where
  | noCall
  | join_with_stream
  | change_stream
  deriving DecidableEq, Repr

/-- PyrogramTgCallsBackend.play_media (lines 604-678).  Checks the
is_initialized flag, then that the asset file exists on disk, then the
pytgcalls.types import; if the destination has a truthy current_stream it
issues change_stream, otherwise join_group_call with the stream and
records a fresh call-info entry; on success the entry ends with
current_stream = file_path and is_paused = False; a raised underlying
call is caught by the outer handler and returns failure with the state
unchanged.  is_video selects AudioPiped versus VideoPiped and quality the
stream parameters; both go through the same join/change calls, so they do
not affect the abstract state. -/
def play_media (env : BackendEnv) (S : BackendState) (chat : Int)
    (file_path : String) (is_video : Bool) (quality : String) :
    PlayOutcome × BackendCall × BackendState :=
  if !S.is_initialized then (.fail_not_initialized, .noCall, S)
  else if !env.fileExists file_path then (.fail_missing_file, .noCall, S)
  else if !env.apiImportOk then (.fail_api, .noCall, S)
  else
    let freshInfo : CallInfo :=
      { joined_at := env.now, current_stream := some file_path, is_paused := false }
    let joinAttempt : PlayOutcome × BackendCall × BackendState :=
      if env.joinOk then
        (.ok, .join_with_stream,
         { S with active_calls := dictSet S.active_calls chat freshInfo })
      else (.fail_backend, .join_with_stream, S)
    match dictGet? S.active_calls chat with
    | some info =>
      if pyTruthy info.current_stream then
        if env.changeOk then
          let info1 := { info with current_stream := some file_path, is_paused := false }
          (.ok, .change_stream,
           { S with active_calls := dictSet S.active_calls chat info1 })
        else (.fail_backend, .change_stream, S)
      else joinAttempt
    | none => joinAttempt

/-- PyrogramTgCallsBackend.leave_voice_chat (lines 584-602): success if
the chat has no active-call entry; otherwise leave_group_call is called
with any raised error swallowed as a warning, the entry is popped, and
success is returned. -/
def leave_voice_chat (env : BackendEnv) (S : BackendState) (chat : Int) :
    Bool × BackendState :=
  match dictGet? S.active_calls chat with
  | none => (true, S)
  | some _ =>
    (true, { S with active_calls := dictPop S.active_calls chat })

/-- PyrogramTgCallsBackend.stop_stream (lines 720-734): returns False when
the chat has no active-call entry; otherwise delegates to
leave_voice_chat and returns True. -/
def stop_stream (env : BackendEnv) (S : BackendState) (chat : Int) :
    Bool × BackendState :=
  match dictGet? S.active_calls chat with
  | none => (false, S)
  | some _ =>
    let r := leave_voice_chat env S chat
    (true, r.2)

/-!
Orchestrator: VoiceChatNativeMod._play_next (voicechat.py, lines
1356-1391).  The recursion of the source carries no bound of its own, so
the embedding is fuelled: a None result means the recursion consumed
every amount of fuel supplied, i.e. the source recurses without bound.
-/

/-- VoiceChatNativeMod._play_next (lines 1356-1391): read the current
entry; when its asset file is missing on disk, advance and recurse if
advancing yielded an entry; otherwise call the backend play_media and, on
failure, advance and recurse likewise.  Returns the queue and backend
states on termination, and none when the given fuel is exhausted. -/
def play_next : Nat → BackendEnv → QMState → BackendState → Int →
    Option (QMState × BackendState)
  | 0, _, _, _, _ => none
  | fuel + 1, env, S, B, chat =>
    match get_current S chat with
    | none => some (S, B)
    | some item =>
      if !env.fileExists item.file_path then
        let r := next_item S chat
        match r.1 with
        | some _ => play_next fuel env r.2 B chat
        | none => some (r.2, B)
      else
        let p := play_media env B chat item.file_path item.is_video "medium"
        match p.1 with
        | .ok => some (S, p.2.2)
        | _ =>
          let r := next_item S chat
          match r.1 with
          | some _ => play_next fuel env r.2 p.2.2 chat
          | none => some (r.2, p.2.2)

/-- The cursor invariant of the Playback Queue Store: for every
destination, the cursor is non-negative and within the items when they
are non-empty, and 0 (the undefined/0 reading of the spec) when they are
empty. -/
def cursorInv (S : QMState) : Prop :=
  ∀ chat : Int, 0 ≤ cursorOf S chat ∧
    (cursorOf S chat < ((get_queue S chat).length : Int) ∨
      (get_queue S chat = [] ∧ cursorOf S chat = 0))

/-!
Concrete fixtures used by witnesses and counterexamples.
-/

/-- A sample queue item. -/
def c9Item : QueueItem :=
  { file_path := "/tmp/a.mp3", title := "a", duration := 10, is_video := false,
    source_type := "url", added_by := 7, timestamp := 0 }

/-- A second sample queue item. -/
def cItemB : QueueItem :=
  { file_path := "/tmp/b.mp3", title := "b", duration := 20, is_video := false,
    source_type := "youtube", added_by := 8, timestamp := 1 }

/-- A two-element queue for destination 5 with the cursor on the last
index and repeat disabled. -/
def c3S : QMState :=
  { queues := [(5, [c9Item, cItemB])], currentPlaying := [(5, 1)],
    repeatMode := [(5, false)] }

/-- A benign backend environment: every non-empty path exists on disk and
every underlying PyTgCalls call succeeds. -/
def c5env : BackendEnv :=
  { fileExists := fun s => s != "", apiImportOk := true, joinOk := true,
    changeOk := true, leaveRaises := false, now := 0 }

/-- An initialized backend with no active calls. -/
def emptyBE : BackendState := ⟨true, []⟩

/-- An initialized backend already streaming in destination 1. -/
def b6S : BackendState := ⟨true, [(1, ⟨0, some "/tmp/a.mp3", false⟩)]⟩

/-- A backend environment in which no file exists on disk. -/
def envAllMissing : BackendEnv :=
  { fileExists := fun _ => false, apiImportOk := true, joinOk := true,
    changeOk := true, leaveRaises := false, now := 0 }

/-- A queue entry whose asset file is missing on disk (under
envAllMissing). -/
def goneItem : QueueItem :=
  { file_path := "/tmp/gone.mp3", title := "gone" }

/-- Destination 1 holds a one-entry queue, cursor 0, repeat enabled, and
the single entry's asset file is missing. -/
def c1S : QMState := ⟨[(1, [goneItem])], [(1, 0)], [(1, true)]⟩

/-!
Helper lemmas about the dict model.
-/

theorem dictGet?_dictSet_self {α : Type} (l : List (Int × α)) (k : Int) (v : α) :
    dictGet? (dictSet l k v) k = some v := by
  induction l with
  | nil => simp [dictGet?, dictSet]
  | cons p t ih =>
    obtain ⟨a, b⟩ := p
    by_cases hp : a = k
    · subst hp; simp [dictGet?, dictSet]
    · simp [dictGet?, dictSet, hp, ih]

theorem dictGet?_dictSet_ne {α : Type} (l : List (Int × α)) (k k1 : Int) (v : α)
    (h : k1 ≠ k) : dictGet? (dictSet l k v) k1 = dictGet? l k1 := by
  have h2 : ¬(k = k1) := fun hh => h hh.symm
  induction l with
  | nil => simp [dictGet?, dictSet, h2]
  | cons p t ih =>
    obtain ⟨a, b⟩ := p
    by_cases hp : a = k
    · subst hp; simp [dictGet?, dictSet, h2]
    · simp [dictGet?, dictSet, hp, ih]

theorem dictGet?_dictPop_self {α : Type} (l : List (Int × α)) (k : Int) :
    dictGet? (dictPop l k) k = none := by
  induction l with
  | nil => rfl
  | cons p t ih =>
    obtain ⟨a, b⟩ := p
    by_cases hp : a = k
    · subst hp; simpa [dictPop, List.filter_cons] using ih
    · have hb : (a != k) = true := by simp [hp]
      simpa [dictPop, List.filter_cons, hb, dictGet?, hp] using ih

theorem dictGet?_dictPop_ne {α : Type} (l : List (Int × α)) (k k1 : Int)
    (h : k1 ≠ k) : dictGet? (dictPop l k) k1 = dictGet? l k1 := by
  induction l with
  | nil => rfl
  | cons p t ih =>
    obtain ⟨a, b⟩ := p
    by_cases hp : a = k
    · subst hp
      have h2 : ¬(a = k1) := fun hh => h hh.symm
      simpa [dictPop, List.filter_cons, dictGet?, h2] using ih
    · have hb : (a != k) = true := by simp [hp]
      simp [dictPop, List.filter_cons, hb, dictGet?]
      by_cases hq : a = k1
      all_goals simp [hq, dictPop] at ih ⊢
      all_goals exact ih

theorem dictGetD_dictSet_self {α : Type} (l : List (Int × α)) (k : Int) (v d : α) :
    dictGetD (dictSet l k v) k d = v := by
  simp [dictGetD, dictGet?_dictSet_self]

theorem dictGetD_dictSet_ne {α : Type} (l : List (Int × α)) (k k1 : Int) (v d : α)
    (h : k1 ≠ k) : dictGetD (dictSet l k v) k1 d = dictGetD l k1 d := by
  simp [dictGetD, dictGet?_dictSet_ne _ _ _ _ h]

theorem dictGetD_dictPop_self {α : Type} (l : List (Int × α)) (k : Int) (d : α) :
    dictGetD (dictPop l k) k d = d := by
  simp [dictGetD, dictGet?_dictPop_self]

theorem dictGetD_dictPop_ne {α : Type} (l : List (Int × α)) (k k1 : Int) (d : α)
    (h : k1 ≠ k) : dictGetD (dictPop l k) k1 d = dictGetD l k1 d := by
  simp [dictGetD, dictGet?_dictPop_ne _ _ _ h]

/-!
Claim theorems.
-/

/-- C3: on a non-empty queue whose cursor is in range, advance moves the
cursor to cursor+1 and returns that entry; when cursor+1 exceeds the last
index it wraps to 0 and returns the entry at index 0 if repeat is set,
otherwise it returns absent leaving the whole state (hence the cursor,
which then equals N-1) unchanged; the items of every destination are
never removed by advance. -/
theorem c3_advance (S : QMState) (chat : Int)
    (hne : get_queue S chat ≠ [])
    (h0 : 0 ≤ cursorOf S chat)
    (hlt : cursorOf S chat < ((get_queue S chat).length : Int)) :
    (next_item S chat).2.queues = S.queues ∧
    (if cursorOf S chat + 1 < ((get_queue S chat).length : Int) then
        cursorOf (next_item S chat).2 chat = cursorOf S chat + 1 ∧
        (next_item S chat).1 = (get_queue S chat).get? (cursorOf S chat + 1).toNat
      else if is_repeat_enabled S chat then
        cursorOf (next_item S chat).2 chat = 0 ∧
        (next_item S chat).1 = (get_queue S chat).get? 0
      else
        next_item S chat = (none, S) ∧
        cursorOf S chat = ((get_queue S chat).length : Int) - 1) := by
  by_cases hmid : cursorOf S chat + 1 < ((get_queue S chat).length : Int)
  · have hcond : ¬ ((get_queue S chat).length : Int) ≤ cursorOf S chat + 1 := by omega
    have hc2 : ¬ ((get_queue S chat).length : Int) ≤ dictGetD S.currentPlaying chat 0 + 1 :=
      hcond
    refine ⟨?_, ?_⟩
    · simp [next_item, hne, hcond]
    · simp only [if_pos hmid]
      constructor
      · simp [next_item, hne, hc2, cursorOf, dictGetD_dictSet_self]
      · simp [next_item, hne, hcond]
  · have hcond : ((get_queue S chat).length : Int) ≤ cursorOf S chat + 1 := by omega
    have hc2 : ((get_queue S chat).length : Int) ≤ dictGetD S.currentPlaying chat 0 + 1 :=
      hcond
    by_cases hrep : is_repeat_enabled S chat
    · refine ⟨?_, ?_⟩
      · simp [next_item, hne, hcond, hrep]
      · simp only [if_neg hmid, if_pos hrep]
        constructor
        · simp [next_item, hne, hc2, hrep, cursorOf, dictGetD_dictSet_self]
        · simp [next_item, hne, hcond, hrep]
    · refine ⟨?_, ?_⟩
      · simp [next_item, hne, hcond, hrep]
      · simp only [if_neg hmid, if_neg hrep]
        constructor
        · simp [next_item, hne, hcond, hrep]
        · omega

/-- Witness for C3 at a concrete two-element queue with the cursor at the
last index, repeat disabled. -/
theorem c3_advance_witness :
    (get_queue c3S 5 ≠ [] ∧ 0 ≤ cursorOf c3S 5 ∧
      cursorOf c3S 5 < ((get_queue c3S 5).length : Int)) ∧
    ((next_item c3S 5).2.queues = c3S.queues ∧
      (if cursorOf c3S 5 + 1 < ((get_queue c3S 5).length : Int) then
          cursorOf (next_item c3S 5).2 5 = cursorOf c3S 5 + 1 ∧
          (next_item c3S 5).1 = (get_queue c3S 5).get? (cursorOf c3S 5 + 1).toNat
        else if is_repeat_enabled c3S 5 then
          cursorOf (next_item c3S 5).2 5 = 0 ∧
          (next_item c3S 5).1 = (get_queue c3S 5).get? 0
        else
          next_item c3S 5 = (none, c3S) ∧
          cursorOf c3S 5 = ((get_queue c3S 5).length : Int) - 1)) :=
  ⟨⟨by decide, by decide, by decide⟩, c3_advance c3S 5 (by decide) (by decide) (by decide)⟩

/-- C4 counterexample: clear_queue does not drop the repeat state.  On the
concrete state obtained by enabling repeat for destination 1 and then
clearing destination 1, a subsequent is_repeat_enabled read still returns
true, while the claim requires the repeat state to be dropped (a read of
the default false). -/
theorem c4_counterexample :
    is_repeat_enabled (clear_queue (set_repeat emptyQM 1 true) 1) 1 = true := by
  decide

/-- C4 amended: for every destination and every prior queue state, clear
drops that destination's whole queue and its cursor state (but leaves the
repeat flag untouched), and any subsequent current call for that
destination returns absent. -/
theorem c4_amended_clear (S : QMState) (chat : Int) :
    get_queue (clear_queue S chat) chat = [] ∧
    cursorOf (clear_queue S chat) chat = 0 ∧
    get_current (clear_queue S chat) chat = none ∧
    is_repeat_enabled (clear_queue S chat) chat = is_repeat_enabled S chat := by
  have hq : get_queue (clear_queue S chat) chat = [] := by
    simp [get_queue, clear_queue, dictGetD_dictPop_self]
  have hc : cursorOf (clear_queue S chat) chat = 0 := by
    simp [cursorOf, clear_queue, dictGetD_dictPop_self]
  exact ⟨hq, hc, by simp [get_current, hq], rfl⟩

/-- C9: append on a destination with an empty queue (and, per the spec
invariant, cursor 0) returns the new 1-based position — the new queue
length, hence 1 — and a subsequent current call returns the appended
entry (the entry stamped with the enqueue time). -/
theorem c9_append_then_current (S : QMState) (chat : Int) (item : QueueItem)
    (now : Int) (hempty : get_queue S chat = []) (hcur : cursorOf S chat = 0) :
    (add_item S chat item now).1 = (get_queue S chat).length + 1 ∧
    (add_item S chat item now).1 = 1 ∧
    get_current (add_item S chat item now).2 chat =
      some { item with timestamp := now } := by
  have hempty1 : dictGetD S.queues chat [] = [] := hempty
  have hcur1 : dictGetD S.currentPlaying chat 0 = 0 := hcur
  refine ⟨?_, ?_, ?_⟩
  · simp [add_item, get_queue, hempty1]
  · simp [add_item, hempty1]
  · simp [add_item, get_current, get_queue, cursorOf, hempty1, hcur1,
      dictGetD_dictSet_self]

/-- Witness for C9 on the empty state. -/
theorem c9_append_then_current_witness :
    (get_queue emptyQM 1 = [] ∧ cursorOf emptyQM 1 = 0) ∧
    ((add_item emptyQM 1 c9Item 5).1 = (get_queue emptyQM 1).length + 1 ∧
      (add_item emptyQM 1 c9Item 5).1 = 1 ∧
      get_current (add_item emptyQM 1 c9Item 5).2 1 =
        some { c9Item with timestamp := 5 }) :=
  ⟨⟨by decide, by decide⟩, c9_append_then_current emptyQM 1 c9Item 5 rfl rfl⟩

/-- C10: set_repeat changes only the given destination's repeat flag: a
subsequent is_repeat_enabled read returns the written boolean, the queues
and cursors of every destination are untouched, and the repeat flag of
every other destination is unchanged. -/
theorem c10_set_repeat_frame (S : QMState) (c d : Int) (b : Bool) :
    is_repeat_enabled (set_repeat S c b) c = b ∧
    (set_repeat S c b).queues = S.queues ∧
    (set_repeat S c b).currentPlaying = S.currentPlaying ∧
    (d ≠ c → is_repeat_enabled (set_repeat S c b) d = is_repeat_enabled S d) := by
  refine ⟨?_, rfl, rfl, ?_⟩
  · simp [is_repeat_enabled, set_repeat, dictGetD_dictSet_self]
  · intro hd
    simp [is_repeat_enabled, set_repeat, dictGetD_dictSet_ne _ _ _ _ _ hd]

/-- C8: starting from any state satisfying the cursor invariant, each
Playback Queue Store operation preserves it — append (add_item), advance
(next_item) and clear (clear_queue) shown on their resulting states;
current (get_current) mutates nothing in the source, so its preservation
is definitional.  The final conjunct records that the invariant yields
exactly the claimed bound 0 <= cursor < len(items) on every destination
with non-empty items. -/
theorem c8_ops_preserve_inv (S : QMState) (chat : Int) (item : QueueItem)
    (now : Int) (h : cursorInv S) :
    cursorInv (add_item S chat item now).2 ∧
    cursorInv (next_item S chat).2 ∧
    cursorInv (clear_queue S chat) ∧
    (∀ d : Int, get_queue S d ≠ [] →
      0 ≤ cursorOf S d ∧ cursorOf S d < ((get_queue S d).length : Int)) := by
  refine ⟨?_, ?_, ?_, ?_⟩
  · -- add_item
    intro d
    have hd0 := h d
    have hcur : cursorOf (add_item S chat item now).2 d = cursorOf S d := rfl
    by_cases hd : d = chat
    · subst hd
      have hq : get_queue (add_item S d item now).2 d =
          get_queue S d ++ [{ item with timestamp := now }] := by
        simp [add_item, get_queue, dictGetD_dictSet_self]
      rw [hq, hcur]
      rcases hd0 with ⟨h1, h2 | ⟨h2, h3⟩⟩
      · refine ⟨h1, Or.inl ?_⟩
        simp only [List.length_append, List.length_cons, List.length_nil]
        omega
      · refine ⟨h1, Or.inl ?_⟩
        simp [h2, h3]
    · have hq : get_queue (add_item S chat item now).2 d = get_queue S d := by
        simp [add_item, get_queue, dictGetD_dictSet_ne _ _ _ _ _ hd]
      rw [hq, hcur]
      exact hd0
  · -- next_item
    intro d
    by_cases hq : get_queue S chat = []
    · have hS : next_item S chat = (none, S) := by simp [next_item, hq]
      rw [hS]
      exact h d
    · have hlen : 0 < ((get_queue S chat).length : Int) := by
        have := List.length_pos.mpr hq
        omega
      by_cases hend : ((get_queue S chat).length : Int) ≤ cursorOf S chat + 1
      · have hc2 : ((get_queue S chat).length : Int) ≤
            dictGetD S.currentPlaying chat 0 + 1 := hend
        by_cases hrep : is_repeat_enabled S chat
        · have hS : (next_item S chat).2 =
              { S with currentPlaying := dictSet S.currentPlaying chat 0 } := by
            simp [next_item, hq, hend, hrep]
          rw [hS]
          by_cases hd : d = chat
          · subst hd
            have hc : cursorOf
                { S with currentPlaying := dictSet S.currentPlaying d 0 } d = 0 := by
              simp [cursorOf, dictGetD_dictSet_self]
            have hgq : get_queue
                { S with currentPlaying := dictSet S.currentPlaying d 0 } d =
                get_queue S d := rfl
            rw [hc, hgq]
            exact ⟨le_refl 0, Or.inl hlen⟩
          · have hc : cursorOf
                { S with currentPlaying := dictSet S.currentPlaying chat 0 } d =
                cursorOf S d := by
              simp [cursorOf, dictGetD_dictSet_ne _ _ _ _ _ hd]
            have hgq : get_queue
                { S with currentPlaying := dictSet S.currentPlaying chat 0 } d =
                get_queue S d := rfl
            rw [hc, hgq]
            exact h d
        · have hS : (next_item S chat).2 = S := by
            simp [next_item, hq, hend, hrep]
          rw [hS]
          exact h d
      · have hc2 : ¬ ((get_queue S chat).length : Int) ≤
            dictGetD S.currentPlaying chat 0 + 1 := hend
        have hS : (next_item S chat).2 =
            { S with currentPlaying :=
                dictSet S.currentPlaying chat (dictGetD S.currentPlaying chat 0 + 1) } := by
          simp only [next_item]
          rw [if_neg hq, if_neg hend]
          rfl
        rw [hS]
        by_cases hd : d = chat
        · subst hd
          have hc : cursorOf
              { S with currentPlaying :=
                  dictSet S.currentPlaying d (dictGetD S.currentPlaying d 0 + 1) } d =
              cursorOf S d + 1 := by
            simp [cursorOf, dictGetD_dictSet_self]
          have hgq : get_queue
              { S with currentPlaying :=
                  dictSet S.currentPlaying d (dictGetD S.currentPlaying d 0 + 1) } d =
              get_queue S d := rfl
          rw [hc, hgq]
          have h1 := (h d).1
          refine ⟨by omega, Or.inl ?_⟩
          omega
        · have hc : cursorOf
              { S with currentPlaying :=
                  dictSet S.currentPlaying chat (dictGetD S.currentPlaying chat 0 + 1) } d =
              cursorOf S d := by
            simp [cursorOf, dictGetD_dictSet_ne _ _ _ _ _ hd]
          have hgq : get_queue
              { S with currentPlaying :=
                  dictSet S.currentPlaying chat (dictGetD S.currentPlaying chat 0 + 1) } d =
              get_queue S d := rfl
          rw [hc, hgq]
          exact h d
  · -- clear_queue
    intro d
    by_cases hd : d = chat
    · subst hd
      have hgq : get_queue (clear_queue S d) d = [] := by
        simp [get_queue, clear_queue, dictGetD_dictPop_self]
      have hc : cursorOf (clear_queue S d) d = 0 := by
        simp [cursorOf, clear_queue, dictGetD_dictPop_self]
      rw [hgq, hc]
      exact ⟨le_refl 0, Or.inr ⟨rfl, rfl⟩⟩
    · have hgq : get_queue (clear_queue S chat) d = get_queue S d := by
        simp [get_queue, clear_queue, dictGetD_dictPop_ne _ _ _ _ hd]
      have hc : cursorOf (clear_queue S chat) d = cursorOf S d := by
        simp [cursorOf, clear_queue, dictGetD_dictPop_ne _ _ _ _ hd]
      rw [hgq, hc]
      exact h d
  · -- the invariant gives the claimed bound on non-empty destinations
    intro d hne
    rcases h d with ⟨h1, h2 | ⟨h2, _⟩⟩
    · exact ⟨h1, h2⟩
    · exact absurd h2 hne

/-- Witness for C8 from the empty state. -/
theorem c8_ops_preserve_inv_witness :
    cursorInv emptyQM ∧ cursorInv (add_item emptyQM 1 c9Item 5).2 :=
  have hinv : cursorInv emptyQM := fun _ => ⟨le_refl 0, Or.inr ⟨rfl, rfl⟩⟩
  ⟨hinv, (c8_ops_preserve_inv emptyQM 1 c9Item 5 hinv).1⟩

/-- Witness for C10 at destinations 1 and 2. -/
theorem c10_set_repeat_frame_witness :
    is_repeat_enabled (set_repeat emptyQM 1 true) 1 = true ∧
    ((2 : Int) ≠ 1 ∧
      is_repeat_enabled (set_repeat emptyQM 1 true) 2 = is_repeat_enabled emptyQM 2) := by
  obtain ⟨h1, _, _, h4⟩ := c10_set_repeat_frame emptyQM 1 2 true
  exact ⟨h1, by decide, h4 (by decide)⟩

/-- C1: the claim asserts the Orchestrator bounds its missing-file retry
recursion by the queue length.  The source has no such bound: with repeat
enabled and every asset file missing, next_item always wraps the cursor
back and returns an entry, so _play_next recurses forever.  Formally: on
the one-entry queue c1S (repeat on, file missing), the fuelled embedding
exhausts every amount of fuel — for no fuel does the recursion reach a
terminating branch, refuting the claimed bound by the queue length. -/
theorem c1_play_next_unbounded (fuel : Nat) :
    play_next fuel envAllMissing c1S emptyBE 1 = none := by
  induction fuel with
  | zero => rfl
  | succ n ih => exact ih

/-- C2: temp-file release on resolver failure paths.  First conjunct: the
spec scenario that holds — a direct-URL resolve whose HEAD declares
150 MB against the 100 MB cap fails with no temp file left.  Second
conjunct: the violation — when HEAD succeeds and the GET returns a
non-200 status, the resolver returns the failure value while the already
allocated temp file is still on disk and tracked.  Third conjunct: the
YouTube resolver likewise leaks its temp file on the duration-cap
failure path. -/
theorem c2_resolver_leaks :
    ((directURL_resolve ⟨some (200, some 157286400, "audio/mpeg"), 200, 0⟩ emptyTemp
        "http://host/a.mp3" none 0).1 = none ∧
      (directURL_resolve ⟨some (200, some 157286400, "audio/mpeg"), 200, 0⟩ emptyTemp
        "http://host/a.mp3" none 0).2.files = []) ∧
    ((directURL_resolve ⟨some (200, some 1000, "audio/mpeg"), 404, 0⟩ emptyTemp
        "http://host/a.mp3" none 0).1 = none ∧
      (directURL_resolve ⟨some (200, some 1000, "audio/mpeg"), 404, 0⟩ emptyTemp
        "http://host/a.mp3" none 0).2.files ≠ []) ∧
    ((youtube_resolve ⟨true, true, some ("t", 4000), true⟩ emptyTemp 0).1 = none ∧
      (youtube_resolve ⟨true, true, some ("t", 4000), true⟩ emptyTemp 0).2.files ≠ []) := by
  decide

/-- C5: play on a destination with no active stream issues
join-with-stream; a second play on the same destination with a different
asset while the stream is active issues change-stream, not a second join;
and play checks file existence before any backend call, failing with the
distinct missing-file outcome (no backend call issued), which differs
from the backend-error outcome. -/
theorem c5_play_media (env : BackendEnv) (S : BackendState) (chat : Int)
    (p1 p2 pm : String) (v1 v2 : Bool) (q1 q2 : String)
    (hinit : S.is_initialized = true)
    (habs : dictGet? S.active_calls chat = none)
    (hapi : env.apiImportOk = true)
    (hjoin : env.joinOk = true)
    (hchange : env.changeOk = true)
    (hf1 : env.fileExists p1 = true)
    (hf2 : env.fileExists p2 = true)
    (hp1 : p1 ≠ "")
    (hm : env.fileExists pm = false) :
    (play_media env S chat p1 v1 q1).1 = PlayOutcome.ok ∧
    (play_media env S chat p1 v1 q1).2.1 = BackendCall.join_with_stream ∧
    (play_media env (play_media env S chat p1 v1 q1).2.2 chat p2 v2 q2).2.1 =
      BackendCall.change_stream ∧
    (play_media env S chat pm v1 q1).1 = PlayOutcome.fail_missing_file ∧
    (play_media env S chat pm v1 q1).2.1 = BackendCall.noCall ∧
    PlayOutcome.fail_missing_file ≠ PlayOutcome.fail_backend := by
  have h1 : play_media env S chat p1 v1 q1 =
      (PlayOutcome.ok, BackendCall.join_with_stream,
        { S with active_calls :=
            dictSet S.active_calls chat (⟨env.now, some p1, false⟩ : CallInfo) }) := by
    simp [play_media, hinit, hf1, hapi, hjoin, habs]
  have h2 : dictGet? (dictSet S.active_calls chat
      (⟨env.now, some p1, false⟩ : CallInfo)) chat =
      some ⟨env.now, some p1, false⟩ := dictGet?_dictSet_self _ _ _
  refine ⟨by rw [h1], by rw [h1], ?_, ?_, ?_, by decide⟩
  · rw [h1]
    simp [play_media, hinit, hf2, hapi, hchange, h2, pyTruthy, hp1]
  · simp [play_media, hinit, hm]
  · simp [play_media, hinit, hm]

/-- Witness for C5: destination 1 of an initialized idle backend, two
existing assets and one missing asset. -/
theorem c5_play_media_witness :
    (emptyBE.is_initialized = true ∧ dictGet? emptyBE.active_calls 1 = none ∧
      c5env.fileExists "/tmp/a.mp3" = true ∧ c5env.fileExists "" = false) ∧
    ((play_media c5env emptyBE 1 "/tmp/a.mp3" false "medium").1 = PlayOutcome.ok ∧
      (play_media c5env emptyBE 1 "/tmp/a.mp3" false "medium").2.1 =
        BackendCall.join_with_stream ∧
      (play_media c5env
          (play_media c5env emptyBE 1 "/tmp/a.mp3" false "medium").2.2 1
          "/tmp/b.mp3" false "medium").2.1 = BackendCall.change_stream ∧
      (play_media c5env emptyBE 1 "" false "medium").1 =
        PlayOutcome.fail_missing_file ∧
      (play_media c5env emptyBE 1 "" false "medium").2.1 = BackendCall.noCall ∧
      PlayOutcome.fail_missing_file ≠ PlayOutcome.fail_backend) :=
  ⟨⟨rfl, rfl, by decide, by decide⟩,
    c5_play_media c5env emptyBE 1 "/tmp/a.mp3" "/tmp/b.mp3" "" false false
      "medium" "medium" rfl rfl rfl rfl rfl (by decide) (by decide) (by decide)
      (by decide)⟩

/-- C6 counterexample: stop is not equivalent to leave.  On an
initialized backend with no Call Session State entry for destination 1,
stop reports failure while leave reports success. -/
theorem c6_counterexample :
    (stop_stream c5env emptyBE 1).1 = false ∧
    (leave_voice_chat c5env emptyBE 1).1 = true := by
  decide

/-- C6 amended: whenever the destination has a Call Session State entry,
stop is equivalent to leave (same result and same resulting state); when
it has none, leave treats the already-left destination as success and
returns the state unchanged, while stop returns failure. -/
theorem c6_amended_stop_eq_leave (env : BackendEnv) (S : BackendState) (chat : Int) :
    (dictGet? S.active_calls chat ≠ none →
      stop_stream env S chat = leave_voice_chat env S chat) ∧
    (dictGet? S.active_calls chat = none →
      leave_voice_chat env S chat = (true, S) ∧
      (stop_stream env S chat).1 = false) := by
  constructor
  · intro h
    match hx : dictGet? S.active_calls chat with
    | none => exact absurd hx h
    | some info => simp [stop_stream, leave_voice_chat, hx]
  · intro h
    simp [stop_stream, leave_voice_chat, h]

/-- Witness for C6 amended on a backend joined to destination 1. -/
theorem c6_amended_witness :
    dictGet? b6S.active_calls 1 ≠ none ∧
    stop_stream c5env b6S 1 = leave_voice_chat c5env b6S 1 :=
  ⟨by decide, (c6_amended_stop_eq_leave c5env b6S 1).1 (by decide)⟩

/-- Loading touches only the keys present in the data: lookups at any
other key are unchanged. -/
theorem load_queues_frame (data : List (Int × QueueRecord)) (S0 : QMState)
    (c : Int) (hc : c ∉ data.map Prod.fst) :
    dictGet? (load_queues S0 data).queues c = dictGet? S0.queues c ∧
    dictGet? (load_queues S0 data).currentPlaying c = dictGet? S0.currentPlaying c ∧
    dictGet? (load_queues S0 data).repeatMode c = dictGet? S0.repeatMode c := by
  induction data generalizing S0 with
  | nil => exact ⟨rfl, rfl, rfl⟩
  | cons p t ih =>
    have hc1 : c ≠ p.1 := by
      intro hh
      exact hc (by simp [hh])
    have hct : c ∉ t.map Prod.fst := fun hh => hc (by simp [hh])
    have hstep : load_queues S0 (p :: t) =
        load_queues ⟨dictSet S0.queues p.1 p.2.items,
          dictSet S0.currentPlaying p.1 p.2.current,
          dictSet S0.repeatMode p.1 p.2.rep⟩ t := rfl
    rw [hstep]
    rcases ih _ hct with ⟨h1, h2, h3⟩
    refine ⟨?_, ?_, ?_⟩
    · rw [h1]; exact dictGet?_dictSet_ne _ _ _ _ hc1
    · rw [h2]; exact dictGet?_dictSet_ne _ _ _ _ hc1
    · rw [h3]; exact dictGet?_dictSet_ne _ _ _ _ hc1

/-- Loading data with distinct keys makes lookups at a present key return
exactly that record's fields. -/
theorem load_queues_hit (data : List (Int × QueueRecord)) (S0 : QMState)
    (c : Int) (r : QueueRecord) (hnd : (data.map Prod.fst).Nodup)
    (hr : dictGet? data c = some r) :
    dictGet? (load_queues S0 data).queues c = some r.items ∧
    dictGet? (load_queues S0 data).currentPlaying c = some r.current ∧
    dictGet? (load_queues S0 data).repeatMode c = some r.rep := by
  induction data generalizing S0 with
  | nil => simp [dictGet?] at hr
  | cons p t ih =>
    have hstep : load_queues S0 (p :: t) =
        load_queues ⟨dictSet S0.queues p.1 p.2.items,
          dictSet S0.currentPlaying p.1 p.2.current,
          dictSet S0.repeatMode p.1 p.2.rep⟩ t := rfl
    rw [hstep]
    by_cases hac : p.1 = c
    · have hrp : r = p.2 := by
        have : dictGet? (p :: t) c = some p.2 := by
          cases p with
          | mk a b => simp [dictGet?] at hac ⊢; simp [hac]
        rw [this] at hr
        exact (Option.some_injective _ hr).symm
      have hct : c ∉ t.map Prod.fst := by
        rw [← hac]
        exact (List.nodup_cons.mp hnd).1
      rcases load_queues_frame t _ c hct with ⟨h1, h2, h3⟩
      subst hrp
      refine ⟨?_, ?_, ?_⟩
      · rw [h1, hac]; exact dictGet?_dictSet_self _ _ _
      · rw [h2, hac]; exact dictGet?_dictSet_self _ _ _
      · rw [h3, hac]; exact dictGet?_dictSet_self _ _ _
    · have hr2 : dictGet? t c = some r := by
        cases p with
        | mk a b =>
          simp [dictGet?] at hac hr
          rwa [if_neg hac] at hr
      exact ih _ (List.nodup_cons.mp hnd).2 hr2

/-- The serialized keys form a sublist of the in-memory queue keys. -/
theorem save_queues_keys_sublist (S : QMState) :
    ((save_queues S).map Prod.fst).Sublist (S.queues.map Prod.fst) := by
  unfold save_queues
  generalize S.queues = l
  induction l with
  | nil => simp
  | cons p t ih =>
    by_cases hp : p.2 = []
    · simp only [List.filterMap_cons, hp, if_pos, List.map_cons]
      exact ih.cons _
    · simp only [List.filterMap_cons, hp, if_neg, List.map_cons, ite_false]
      exact ih.cons₂ _

/-- A destination with a non-empty in-memory queue is serialized with
that queue, its cursor reading and its repeat reading. -/
theorem save_queues_hit (S : QMState) (c : Int) (q : List QueueItem)
    (hq : dictGet? S.queues c = some q) (hne : q ≠ []) :
    dictGet? (save_queues S) c =
      some ⟨q, dictGetD S.currentPlaying c 0, dictGetD S.repeatMode c false⟩ := by
  unfold save_queues
  revert hq
  generalize S.queues = l
  intro hq
  induction l with
  | nil => simp [dictGet?] at hq
  | cons p t ih =>
    cases p with
    | mk a b =>
      by_cases hac : a = c
      · subst hac
        have hb : b = q := by simpa [dictGet?] using hq
        subst hb
        simp [List.filterMap_cons, hne, dictGet?]
      · have hq2 : dictGet? t c = some q := by
          simpa [dictGet?, hac] using hq
        by_cases hb : b = []
        · simpa [List.filterMap_cons, hb] using ih hq2
        · simpa [List.filterMap_cons, hb, dictGet?, hac] using ih hq2

/-- Every serialized record has non-empty items. -/
theorem save_queues_mem (S : QMState) (p : Int × QueueRecord)
    (hp : p ∈ save_queues S) : p.2.items ≠ [] := by
  unfold save_queues at hp
  rcases List.mem_filterMap.mp hp with ⟨a, _, hfa⟩
  by_cases h : a.2 = []
  · simp [h] at hfa
  · simp only [h, if_neg, ite_false] at hfa
    have hpe := Option.some_injective _ hfa
    rw [← hpe]
    exact h

/-- C7: serializing all destination queues and reloading them into a
fresh manager restores, for every destination with a non-empty queue, the
same items, the same cursor reading and the same repeat reading; and no
destination with an empty queue is present in the serialized set.  The
distinct-keys hypothesis holds by construction for states coming from a
Python dict. -/
theorem c7_roundtrip (S : QMState) (chat : Int)
    (hwf : (S.queues.map Prod.fst).Nodup)
    (hne : get_queue S chat ≠ []) :
    get_queue (load_queues emptyQM (save_queues S)) chat = get_queue S chat ∧
    cursorOf (load_queues emptyQM (save_queues S)) chat = cursorOf S chat ∧
    is_repeat_enabled (load_queues emptyQM (save_queues S)) chat =
      is_repeat_enabled S chat ∧
    ∀ p ∈ save_queues S, p.2.items ≠ [] := by
  have hq : ∃ q, dictGet? S.queues chat = some q ∧ q ≠ [] := by
    unfold get_queue dictGetD at hne
    cases hx : dictGet? S.queues chat with
    | none => rw [hx] at hne; simp at hne
    | some q =>
      rw [hx] at hne
      exact ⟨q, rfl, by simpa using hne⟩
  obtain ⟨q, hq1, hq2⟩ := hq
  have hsave := save_queues_hit S chat q hq1 hq2
  have hnd : ((save_queues S).map Prod.fst).Nodup :=
    hwf.sublist (save_queues_keys_sublist S)
  have hload := load_queues_hit (save_queues S) emptyQM chat _ hnd hsave
  rcases hload with ⟨h1, h2, h3⟩
  refine ⟨?_, ?_, ?_, fun p hp => save_queues_mem S p hp⟩
  · unfold get_queue dictGetD
    rw [h1, hq1]
  · unfold cursorOf dictGetD
    rw [h2]
    rfl
  · unfold is_repeat_enabled dictGetD
    rw [h3]
    rfl

/-- Witness for C7 on the concrete two-entry state. -/
theorem c7_roundtrip_witness :
    ((c3S.queues.map Prod.fst).Nodup ∧ get_queue c3S 5 ≠ []) ∧
    (get_queue (load_queues emptyQM (save_queues c3S)) 5 = get_queue c3S 5 ∧
      cursorOf (load_queues emptyQM (save_queues c3S)) 5 = cursorOf c3S 5 ∧
      is_repeat_enabled (load_queues emptyQM (save_queues c3S)) 5 =
        is_repeat_enabled c3S 5 ∧
      ∀ p ∈ save_queues c3S, p.2.items ≠ []) :=
  ⟨⟨by decide, by decide⟩, c7_roundtrip c3S 5 (by decide) (by decide)⟩

end VoiceChat
